import Mathlib

/-!
Verification of the FlashCart chargeback dashboard's filtering-and-aggregation
engine and its frontend query layer, against the repository specification.

The frontend sources (`types.ts`, `api/client.ts`, `FiltersPanel.tsx`) are
embedded directly.  The backend engine (filter evaluator, metrics aggregator,
pagination/sort view) is not present in the sources available; its definitions
are modelled from the specification (sections 4.1-4.3, 6, 7) and are marked
`Modelled from the spec:` in their doc comments.
-/

namespace Flashcart

/-! ## Frontend data model (`frontend/src/types.ts`) -/

/-- `Filters` from `types.ts`: the frontend filter state.  Multi-valued
dimensions are string arrays; scalar fields are strings with `""` meaning
unset (JS falsy). -/
structure Filters where
  start_date : String
  end_date : String
  merchant_id : String
  reason_category : List String
  payment_method : List String
  country : List String
  min_amount : String
  max_amount : String
deriving Repr, DecidableEq

/-- `REASON_CATEGORIES` constant from `FiltersPanel.tsx`. -/
def REASON_CATEGORIES : List String :=
  ["fraud", "product_not_received", "product_not_as_described",
   "duplicate_processing", "subscription_cancelled"]

/-- `PAYMENT_METHODS` constant from `FiltersPanel.tsx`. -/
def PAYMENT_METHODS : List String :=
  ["visa", "mastercard", "gopay", "ovo", "gcash", "truemoney", "bank_transfer"]

/-- `COUNTRIES` constant from `FiltersPanel.tsx`. -/
def COUNTRIES : List String := ["ID", "PH", "TH", "VN"]

/-! ## `FiltersPanel.tsx`: the `toggle` closure of `MultiCheckbox` -/

/-- `toggle` from `MultiCheckbox` in `FiltersPanel.tsx`:
if the option is already selected it is removed
(`selected.filter((s) => s !== opt)`), otherwise it is appended
(`[...selected, opt]`). -/
def toggle (selected : List String) (opt : String) : List String :=
  if opt ∈ selected then
    selected.filter (fun s => s ≠ opt)
  else
    selected ++ [opt]

/-! ## `api/client.ts`: query building and request defaults -/

/-- `URLSearchParams.set` semantics as used by `buildQuery`: replace the value
in place when the key is present, otherwise append the pair. -/
def setParam (ps : List (String × String)) (k v : String) : List (String × String) :=
  if ps.any (fun q => q.1 = k) then
    ps.map (fun q => if q.1 = k then (k, v) else q)
  else
    ps ++ [(k, v)]

/-- `buildQuery` from `api/client.ts`: serialises the filter state into query
parameters, skipping empty strings and empty arrays (JS falsy / `length > 0`
guards), then applies the `extra` entries in order. -/
def buildQuery (filters : Filters) (extra : List (String × String)) :
    List (String × String) :=
  let ps : List (String × String) := []
  let ps := if filters.start_date ≠ "" then setParam ps "start_date" filters.start_date else ps
  let ps := if filters.end_date ≠ "" then setParam ps "end_date" filters.end_date else ps
  let ps := if filters.merchant_id ≠ "" then setParam ps "merchant_id" filters.merchant_id else ps
  let ps := if filters.reason_category.length > 0 then
      setParam ps "reason_category" (String.intercalate "," filters.reason_category) else ps
  let ps := if filters.payment_method.length > 0 then
      setParam ps "payment_method" (String.intercalate "," filters.payment_method) else ps
  let ps := if filters.country.length > 0 then
      setParam ps "country" (String.intercalate "," filters.country) else ps
  let ps := if filters.min_amount ≠ "" then setParam ps "min_amount" filters.min_amount else ps
  let ps := if filters.max_amount ≠ "" then setParam ps "max_amount" filters.max_amount else ps
  extra.foldl (fun acc kv => setParam acc kv.1 kv.2) ps

/-- Parameter lookup: the value associated with a key in the built query. -/
def getParam (ps : List (String × String)) (k : String) : Option String :=
  (ps.find? (fun q => q.1 = k)).map (fun q => q.2)

/-- `fetchChargebacks` from `api/client.ts`, restricted to the query parameters
it sends: `page = 1`, `pageSize = 50`, `sortBy = "date"`, `sortDir = "desc"`
are TypeScript default parameter values, used when a caller omits them. -/
def fetchChargebacksParams (filters : Filters) (page : Nat := 1)
    (pageSize : Nat := 50) (sortBy : String := "date") (sortDir : String := "desc") :
    List (String × String) :=
  buildQuery filters
    [("page", toString page), ("page_size", toString pageSize),
     ("sort_by", sortBy), ("sort_dir", sortDir)]

/-! ## Core data model (spec §3) -/

/-- Modelled from the spec: §3 `ChargebackRecord` (the backend's row type;
`data_loader.py` is not among the available sources).  Dates are embedded as
integer day numbers; `amount_usd` is an exact rational. -/
structure ChargebackRecord where
  chargeback_id : String
  date : ℤ
  merchant_id : String
  merchant_name : String
  merchant_category : String
  country : String
  reason_category : String
  reason_code : String
  payment_method : String
  amount_usd : ℚ
  status : String
deriving Repr, DecidableEq

/-- Modelled from the spec: §3 `TransactionVolumeAggregate`, one row per
merchant per day, used only as the rate denominator. -/
structure VolumeRow where
  date : ℤ
  merchant_id : String
  transaction_count : Nat
deriving Repr, DecidableEq

/-- Modelled from the spec: §3 `FilterSpecification`.  `none` on a
multi-valued dimension means the dimension was never supplied; per §4.1 an
empty list must behave identically. -/
structure FilterSpec where
  start_date : Option ℤ
  end_date : Option ℤ
  merchant_id : Option String
  reason_category : Option (List String)
  payment_method : Option (List String)
  country : Option (List String)
  min_amount : Option ℚ
  max_amount : Option ℚ
deriving Repr, DecidableEq

/-- Modelled from the spec: §3 `PageSortSpecification`. -/
structure PageSpec where
  page : Nat
  page_size : Nat
  sort_by : String
  sort_dir : String
deriving Repr, DecidableEq

/-! ## Filter evaluator (spec §4.1) -/

/-- Membership test for one multi-valued dimension: an absent or empty set
imposes no restriction (§4.1 edge case), otherwise the record's value must be
a member. -/
def setOk (s : Option (List String)) (v : String) : Bool :=
  match s with
  | none => true
  | some vals => vals.isEmpty || vals.contains v

/-- Substring test on character lists: the needle is a prefix of some
suffix of the haystack. -/
def hasSub (hay needle : List Char) : Bool :=
  hay.tails.any (fun t => needle.isPrefixOf t)

/-- Case-insensitive substring test, used for merchant search-by-name. -/
def containsCI (hay needle : String) : Bool :=
  hasSub hay.toLower.toList needle.toLower.toList

/-- Merchant predicate (§4.1): the supplied token equals the record's
`merchant_id` or is a case-insensitive substring of `merchant_name`. -/
def merchantOk (m : Option String) (r : ChargebackRecord) : Bool :=
  match m with
  | none => true
  | some v => v = r.merchant_id || containsCI r.merchant_name v

/-- The non-date part of the record predicate (§4.1); reused by the trend
computation, which applies "the same non-date filters" to the previous
window. -/
def nonDateOk (F : FilterSpec) (r : ChargebackRecord) : Bool :=
  merchantOk F.merchant_id r &&
  setOk F.reason_category r.reason_category &&
  setOk F.payment_method r.payment_method &&
  setOk F.country r.country &&
  (match F.min_amount with | none => true | some a => decide (a ≤ r.amount_usd)) &&
  (match F.max_amount with | none => true | some b => decide (r.amount_usd ≤ b))

/-- Date-bound part of the record predicate (§4.1): inclusive bounds, an
absent bound imposes no constraint. -/
def dateOk (F : FilterSpec) (r : ChargebackRecord) : Bool :=
  (match F.start_date with | none => true | some s => decide (s ≤ r.date)) &&
  (match F.end_date with | none => true | some e => decide (r.date ≤ e))

/-- Full record predicate: all dimensions must hold (logical AND, §3). -/
def matchesRec (F : FilterSpec) (r : ChargebackRecord) : Bool :=
  dateOk F r && nonDateOk F r

/-- Modelled from the spec: §4.1 `evaluate(store, filter)` — the subset of
the store matching all active criteria, original order preserved. -/
def evaluate (store : List ChargebackRecord) (F : FilterSpec) :
    List ChargebackRecord :=
  store.filter (matchesRec F)

/-! ## Metrics aggregator (spec §4.2) -/

/-- One breakdown group: `{key, count, amount}`. -/
structure Group where
  key : String
  count : Nat
  amount : ℚ
deriving Repr, DecidableEq

/-- One `by_day` entry: `{date, count, amount}`. -/
structure DayGroup where
  date : ℤ
  count : Nat
  amount : ℚ
deriving Repr, DecidableEq

/-- Group ordering for breakdowns: descending by count, ties broken by group
key ascending (§4.2, "for determinism"). -/
def groupLe (g1 g2 : Group) : Bool :=
  decide (g2.count < g1.count ∨ (g1.count = g2.count ∧ g1.key ≤ g2.key))

/-- Modelled from the spec: §4.2 `by_category` / `by_country` /
`by_payment_method` — group the filtered subset by one dimension, summing
count and `amount_usd` per group, sorted descending by count with key-ascending
tie-break.  Keys are taken in first-occurrence order before sorting. -/
def breakdown (l : List ChargebackRecord) (key : ChargebackRecord → String) :
    List Group :=
  ((l.map key).dedup.map (fun k =>
    { key := k,
      count := (l.filter (fun r => decide (key r = k))).length,
      amount := ((l.filter (fun r => decide (key r = k))).map
        (fun r => r.amount_usd)).sum })).mergeSort groupLe

/-- Sum of the per-group counts of a breakdown. -/
def sumCounts (gs : List Group) : Nat :=
  (gs.map (fun g => g.count)).sum

/-- Earliest date in the store (0 for an empty store). -/
def datasetMinDate (store : List ChargebackRecord) : ℤ :=
  match store with
  | [] => 0
  | r :: rs => (rs.map (fun x => x.date)).foldl min r.date

/-- Latest date in the store (0 for an empty store). -/
def datasetMaxDate (store : List ChargebackRecord) : ℤ :=
  match store with
  | [] => 0
  | r :: rs => (rs.map (fun x => x.date)).foldl max r.date

/-- Lower bound of the active date range: the filter's `start_date`, or the
full dataset's earliest date when unbounded (§4.2 `by_day`). -/
def activeLo (store : List ChargebackRecord) (F : FilterSpec) : ℤ :=
  F.start_date.getD (datasetMinDate store)

/-- Upper bound of the active date range: the filter's `end_date`, or the
full dataset's latest date when unbounded. -/
def activeHi (store : List ChargebackRecord) (F : FilterSpec) : ℤ :=
  F.end_date.getD (datasetMaxDate store)

/-- All calendar dates of the inclusive range `[lo, hi]`, ascending. -/
def dateRange (lo hi : ℤ) : List ℤ :=
  (List.range (hi - lo + 1).toNat).map (fun (i : Nat) => lo + (i : ℤ))

/-- Modelled from the spec: §4.2 `by_day` — one entry per calendar date of
the active range, zero-count days included, ascending by date. -/
def byDay (store : List ChargebackRecord) (F : FilterSpec)
    (subset : List ChargebackRecord) : List DayGroup :=
  (dateRange (activeLo store F) (activeHi store F)).map (fun d =>
    { date := d,
      count := (subset.filter (fun r => decide (r.date = d))).length,
      amount := ((subset.filter (fun r => decide (r.date = d))).map
        (fun r => r.amount_usd)).sum })

/-- Volume-row predicate for the rate denominator: the filter's date bounds
and merchant predicate only (volume rows carry no name, so the merchant token
is matched against `merchant_id`); amount/reason/payment/country do not apply
(§4.2). -/
def volMatches (F : FilterSpec) (v : VolumeRow) : Bool :=
  (match F.start_date with | none => true | some s => decide (s ≤ v.date)) &&
  (match F.end_date with | none => true | some e => decide (v.date ≤ e)) &&
  (match F.merchant_id with | none => true | some m => decide (m = v.merchant_id))

/-- Sum of `transaction_count` over the volume rows selected by the filter's
date and merchant predicates. -/
def matchingTransactionCount (vol : List VolumeRow) (F : FilterSpec) : Nat :=
  ((vol.filter (volMatches F)).map (fun v => v.transaction_count)).sum

/-- The fixed fallback multiplier used when the volume dataset is
unavailable (§4.2, default 37; the dashboard KPI card reads
"vs ~37× transaction volume"). -/
def fallbackK : ℚ := 37

/-- Modelled from the spec: §4.2 `chargeback_rate` — `total /
matching_transaction_count * 100` against the volume slice, or the
`total / (total * K)` fallback when the volume dataset is unavailable. -/
def chargebackRate (total : Nat) (volStore : Option (List VolumeRow))
    (F : FilterSpec) : ℚ :=
  match volStore with
  | some vol => (total : ℚ) / (matchingTransactionCount vol F : ℚ) * 100
  | none => (total : ℚ) / ((total : ℚ) * fallbackK) * 100

/-- Round a rational to two decimal places (floor of the half-shifted value). -/
def round2 (q : ℚ) : ℚ := ((q * 100 + 1/2).floor : ℚ) / 100

/-- Modelled from the spec: §4.2 previous-period count — the active range
spans `N = end - start + 1` days; count the records of the `N` days
immediately before `start_date` under the same non-date filters.  When a date
bound is absent there is no defined previous window and the count is 0. -/
def prevCount (store : List ChargebackRecord) (F : FilterSpec) : Nat :=
  match F.start_date, F.end_date with
  | some s, some e =>
    let n : ℤ := e - s + 1
    (store.filter (fun r =>
      decide (s - n ≤ r.date) && decide (r.date ≤ s - 1) && nonDateOk F r)).length
  | _, _ => 0

/-- Modelled from the spec: §4.2 `trend_pct` — percent change versus the
previous equal-length period, with the divide-by-zero sentinel: `previous = 0`
yields 0 when `current = 0` and the documented sentinel 100 otherwise. -/
def trendPct (current previous : Nat) : ℚ :=
  if previous = 0 then
    (if current = 0 then 0 else 100)
  else
    round2 (((current : ℚ) - (previous : ℚ)) / (previous : ℚ) * 100)

/-- Modelled from the spec: §4.2 `MetricsSummary` (field names as in
`types.ts` `MetricsResponse`; `rate_is_approx` is the §7 "degraded
computation" flag accompanying the fallback rate). -/
structure MetricsSummary where
  total_chargebacks : Nat
  total_disputed_amount : ℚ
  chargeback_rate : ℚ
  rate_is_approx : Bool
  trend_pct : ℚ
  by_category : List Group
  by_country : List Group
  by_payment_method : List Group
  by_day : List DayGroup
deriving Repr

/-- Modelled from the spec: §4.2 `aggregate(filteredSubset, store, filter)`,
assembling the metrics summary from the filtered subset, the volume slice and
the previous-period subset. -/
def aggregate (store : List ChargebackRecord)
    (volStore : Option (List VolumeRow)) (F : FilterSpec) : MetricsSummary :=
  let subset := evaluate store F
  { total_chargebacks := subset.length,
    total_disputed_amount := (subset.map (fun r => r.amount_usd)).sum,
    chargeback_rate := chargebackRate subset.length volStore F,
    rate_is_approx := volStore.isNone,
    trend_pct := trendPct subset.length (prevCount store F),
    by_category := breakdown subset (fun r => r.reason_category),
    by_country := breakdown subset (fun r => r.country),
    by_payment_method := breakdown subset (fun r => r.payment_method),
    by_day := byDay store F subset }

/-! ## Pagination/sort view (spec §4.3) -/

/-- Ascending record comparison for one `sort_by` field: string fields
compare lexicographically (case-sensitive), numeric fields numerically, dates
chronologically (§4.3).  An unrecognised field falls back to the default
`"date"`. -/
def recLe (sb : String) (a b : ChargebackRecord) : Bool :=
  match sb with
  | "chargeback_id" => decide (a.chargeback_id ≤ b.chargeback_id)
  | "merchant_id" => decide (a.merchant_id ≤ b.merchant_id)
  | "merchant_name" => decide (a.merchant_name ≤ b.merchant_name)
  | "merchant_category" => decide (a.merchant_category ≤ b.merchant_category)
  | "country" => decide (a.country ≤ b.country)
  | "reason_category" => decide (a.reason_category ≤ b.reason_category)
  | "reason_code" => decide (a.reason_code ≤ b.reason_code)
  | "payment_method" => decide (a.payment_method ≤ b.payment_method)
  | "status" => decide (a.status ≤ b.status)
  | "amount_usd" => decide (a.amount_usd ≤ b.amount_usd)
  | _ => decide (a.date ≤ b.date)

/-- Equality of the `sort_by` field values of two records (a tie for the
purposes of sorting). -/
def fieldEq (sb : String) (a b : ChargebackRecord) : Prop :=
  match sb with
  | "chargeback_id" => a.chargeback_id = b.chargeback_id
  | "merchant_id" => a.merchant_id = b.merchant_id
  | "merchant_name" => a.merchant_name = b.merchant_name
  | "merchant_category" => a.merchant_category = b.merchant_category
  | "country" => a.country = b.country
  | "reason_category" => a.reason_category = b.reason_category
  | "reason_code" => a.reason_code = b.reason_code
  | "payment_method" => a.payment_method = b.payment_method
  | "status" => a.status = b.status
  | "amount_usd" => a.amount_usd = b.amount_usd
  | _ => a.date = b.date

/-- Directed comparison: `sort_dir = "asc"` keeps the ascending comparison,
anything else (the default `"desc"`) reverses the comparison — not the order
of ties (§4.3). -/
def sortLe (sb dir : String) (a b : ChargebackRecord) : Bool :=
  if dir = "asc" then recLe sb a b else recLe sb b a

/-- Modelled from the spec: §4.3 stable sort of the filtered subset by the
`sort_by` field in the `sort_dir` direction (merge sort is stable). -/
def sortRecords (p : PageSpec) (subset : List ChargebackRecord) :
    List ChargebackRecord :=
  subset.mergeSort (sortLe p.sort_by p.sort_dir)

/-- The paginated records object `{records, total, page, page_size}` (§4.3,
`ChargebacksResponse` in `types.ts`). -/
structure PageResult where
  records : List ChargebackRecord
  total : Nat
  page : Nat
  page_size : Nat
deriving Repr

/-- Modelled from the spec: §4.3 `paginate(filteredSubset, pageSortSpec)` —
`total` is the pre-truncation size, `records` the slice
`[(page-1)*page_size, page*page_size)` of the sorted sequence clipped to
available length. -/
def paginate (subset : List ChargebackRecord) (p : PageSpec) : PageResult :=
  let sorted := sortRecords p subset
  { records := (sorted.drop ((p.page - 1) * p.page_size)).take p.page_size,
    total := subset.length,
    page := p.page,
    page_size := p.page_size }

/-! ## Validation at the core boundary (spec §7) -/

/-- Raw, still-textual filter input as it reaches the core when invoked
directly (date bounds as ISO strings, enum dimensions as token lists,
amount bounds already decimal-parsed; §6 encodings). -/
structure RawFilterInput where
  start_date : Option String
  end_date : Option String
  merchant_id : Option String
  reason_category : List String
  payment_method : List String
  country : List String
  min_amount : Option ℚ
  max_amount : Option ℚ
deriving Repr

/-- Raw page/sort input as it reaches the core when invoked directly
(`page` and `page_size` as integers which may be out of range). -/
structure RawPageInput where
  page : ℤ
  page_size : ℤ
  sort_by : String
  sort_dir : String
deriving Repr

/-- Validation failure for a filter specification, identifying the offending
field (§7 `InvalidFilterError`). -/
structure InvalidFilterError where
  field : String
deriving Repr, DecidableEq

/-- Validation failure for a page/sort specification, identifying the
offending field (§7 `InvalidPageSpecError`). -/
structure InvalidPageSpecError where
  field : String
deriving Repr, DecidableEq

/-- Parse an ISO `YYYY-MM-DD` calendar date into a day number; `none` for a
malformed string.  The day number is an order-preserving encoding
(`y * 372 + (m - 1) * 31 + (d - 1)`). -/
def parseDate (s : String) : Option ℤ :=
  match s.splitOn "-" with
  | [y, m, d] =>
    if y.length = 4 ∧ m.length = 2 ∧ d.length = 2 then
      match y.toNat?, m.toNat?, d.toNat? with
      | some yn, some mn, some dn =>
        if 1 ≤ mn ∧ mn ≤ 12 ∧ 1 ≤ dn ∧ dn ≤ 31 then
          some ((yn : ℤ) * 372 + ((mn : ℤ) - 1) * 31 + ((dn : ℤ) - 1))
        else none
      | _, _, _ => none
    else none
  | _ => none

/-- A supplied date bound that does not parse. -/
def badDate (o : Option String) : Bool :=
  match o with
  | none => false
  | some s => (parseDate s).isNone

/-- A multi-valued dimension containing a token outside its fixed
enumeration. -/
def badEnums (vals allowed : List String) : Bool :=
  !(vals.all (fun v => allowed.contains v))

/-- Inverted amount bounds: both supplied and `min_amount > max_amount`. -/
def badAmounts (raw : RawFilterInput) : Bool :=
  match raw.min_amount, raw.max_amount with
  | some a, some b => decide (b < a)
  | _, _ => false

/-- Whether a raw filter input falls in the §7 validation-error class. -/
def filterInvalid (raw : RawFilterInput) : Bool :=
  badDate raw.start_date || badDate raw.end_date ||
  badEnums raw.reason_category REASON_CATEGORIES ||
  badEnums raw.payment_method PAYMENT_METHODS ||
  badEnums raw.country COUNTRIES ||
  badAmounts raw

/-- Whether a field name designates a genuinely offending field of a raw
filter input. -/
def offendsFilter (raw : RawFilterInput) (f : String) : Bool :=
  (f = "start_date" && badDate raw.start_date) ||
  (f = "end_date" && badDate raw.end_date) ||
  (f = "reason_category" && badEnums raw.reason_category REASON_CATEGORIES) ||
  (f = "payment_method" && badEnums raw.payment_method PAYMENT_METHODS) ||
  (f = "country" && badEnums raw.country COUNTRIES) ||
  (f = "min_amount" && badAmounts raw)

/-- Modelled from the spec: §7 — the core, invoked directly with a malformed
date string, an unknown enum value, or `min_amount > max_amount`, fails with
an `InvalidFilterError` identifying the offending field; it does not clamp or
guess.  On valid input it produces the parsed `FilterSpec`. -/
def validateFilter (raw : RawFilterInput) :
    Except InvalidFilterError FilterSpec :=
  if badDate raw.start_date then .error ⟨"start_date"⟩
  else if badDate raw.end_date then .error ⟨"end_date"⟩
  else if badEnums raw.reason_category REASON_CATEGORIES then .error ⟨"reason_category"⟩
  else if badEnums raw.payment_method PAYMENT_METHODS then .error ⟨"payment_method"⟩
  else if badEnums raw.country COUNTRIES then .error ⟨"country"⟩
  else if badAmounts raw then .error ⟨"min_amount"⟩
  else .ok
    { start_date := raw.start_date.bind parseDate,
      end_date := raw.end_date.bind parseDate,
      merchant_id := raw.merchant_id,
      reason_category := some raw.reason_category,
      payment_method := some raw.payment_method,
      country := some raw.country,
      min_amount := raw.min_amount,
      max_amount := raw.max_amount }

/-- Whether a raw page input falls in the §7 boundary-violation class
(`page < 1` or `page_size < 1`). -/
def pageInvalid (p : RawPageInput) : Bool :=
  decide (p.page < 1) || decide (p.page_size < 1)

/-- Whether a field name designates a genuinely offending field of a raw
page input. -/
def offendsPage (p : RawPageInput) (f : String) : Bool :=
  (f = "page" && decide (p.page < 1)) ||
  (f = "page_size" && decide (p.page_size < 1))

/-- Modelled from the spec: §7 — `page < 1` or `page_size < 1` fails with an
`InvalidPageSpecError` identifying the offending field. -/
def validatePage (p : RawPageInput) : Except InvalidPageSpecError PageSpec :=
  if p.page < 1 then .error ⟨"page"⟩
  else if p.page_size < 1 then .error ⟨"page_size"⟩
  else .ok
    { page := p.page.toNat,
      page_size := p.page_size.toNat,
      sort_by := p.sort_by,
      sort_dir := p.sort_dir }

/-! ## Concrete sample data for witnesses -/

/-- A sample chargeback record (values drawn from the README data model). -/
def sampleRec : ChargebackRecord :=
  { chargeback_id := "cb-001", date := 10, merchant_id := "M003",
    merchant_name := "GamersParadise", merchant_category := "gaming",
    country := "ID", reason_category := "fraud", reason_code := "10.4",
    payment_method := "visa", amount_usd := 50, status := "open" }

/-- A second sample record sharing `sampleRec`'s date but nothing else. -/
def sampleRecB : ChargebackRecord :=
  { chargeback_id := "cb-002", date := 10, merchant_id := "M006",
    merchant_name := "ElectroShop VN", merchant_category := "electronics",
    country := "VN", reason_category := "product_not_received",
    reason_code := "13.1", payment_method := "gopay", amount_usd := 75,
    status := "lost" }

/-- The unconstrained filter: every dimension unset. -/
def emptyFilter : FilterSpec :=
  { start_date := none, end_date := none, merchant_id := none,
    reason_category := none, payment_method := none, country := none,
    min_amount := none, max_amount := none }

/-! ## Claims -/

/-- C1: for every store and filter, setting a multi-valued dimension
(`reason_category`, `payment_method`, or `country`) to the empty set yields
exactly the same `evaluate` result as leaving that dimension unset — an empty
set imposes no restriction, never "match nothing". -/
theorem empty_set_means_no_restriction (store : List ChargebackRecord)
    (F : FilterSpec) :
    evaluate store { F with reason_category := some [] } =
      evaluate store { F with reason_category := none } ∧
    evaluate store { F with payment_method := some [] } =
      evaluate store { F with payment_method := none } ∧
    evaluate store { F with country := some [] } =
      evaluate store { F with country := none } := by
  refine ⟨?_, ?_, ?_⟩ <;>
    · unfold evaluate
      apply List.filter_congr
      intro r _
      simp [matchesRec, dateOk, nonDateOk, setOk]

/-- C10: the filter panel's checkbox `toggle` removes the option when already
selected and appends it when absent, hence preserves the at-most-once
invariant of every multi-valued selection list. -/
theorem toggle_preserves_nodup (selected : List String) (opt : String)
    (h : selected.Nodup) :
    (toggle selected opt).Nodup ∧
    (opt ∈ selected → toggle selected opt = selected.filter (fun s => s ≠ opt)) ∧
    (opt ∉ selected → toggle selected opt = selected ++ [opt]) := by
  refine ⟨?_, fun hm => by simp [toggle, hm], fun hm => by simp [toggle, hm]⟩
  by_cases hm : opt ∈ selected
  · simpa [toggle, hm] using h.filter (fun s => decide (s ≠ opt))
  · simp only [toggle, hm, if_neg, ite_false]
    exact (List.nodup_append).mpr ⟨h, List.nodup_singleton opt, by simpa using hm⟩

/-- Witness for C10 at a concrete selection list. -/
theorem toggle_preserves_nodup_witness :
    (toggle ["fraud"] "gopay").Nodup ∧
    (toggle ["fraud"] "fraud").Nodup :=
  ⟨(toggle_preserves_nodup ["fraud"] "gopay" (by decide)).1,
   (toggle_preserves_nodup ["fraud"] "fraud" (by decide)).1⟩

/-- C3: when the previous-period count is 0, the trend computation yields 0
if the current-period count is also 0 and the documented sentinel 100 if the
current-period count is positive — never a division failure. -/
theorem trend_zero_previous_sentinel (store : List ChargebackRecord)
    (volStore : Option (List VolumeRow)) (F : FilterSpec)
    (h : prevCount store F = 0) :
    ((evaluate store F).length = 0 → (aggregate store volStore F).trend_pct = 0) ∧
    (0 < (evaluate store F).length → (aggregate store volStore F).trend_pct = 100) := by
  constructor
  · intro hc
    simp [aggregate, trendPct, h, hc]
  · intro hc
    have hne : (evaluate store F).length ≠ 0 := Nat.pos_iff_ne_zero.mp hc
    simp [aggregate, trendPct, h, hne]

/-- Witness for C3: a one-record store whose active range [10,10] has an
empty previous window; current count is 1, so the trend is the sentinel. -/
theorem trend_zero_previous_sentinel_witness :
    prevCount [sampleRec]
      { emptyFilter with start_date := some 10, end_date := some 10 } = 0 ∧
    0 < (evaluate [sampleRec]
      { emptyFilter with start_date := some 10, end_date := some 10 }).length ∧
    (aggregate [sampleRec] none
      { emptyFilter with start_date := some 10, end_date := some 10 }).trend_pct = 100 :=
  ⟨by decide, by decide,
   (trend_zero_previous_sentinel [sampleRec] none
      { emptyFilter with start_date := some 10, end_date := some 10 }
      (by decide)).2 (by decide)⟩

/-- C4: for `page ≥ 1` and `page_size ≥ 1`, `paginate` reports the full
pre-truncation subset size as `total`, returns exactly the slice
`[(page-1)*page_size, page*page_size)` of the sorted sequence clipped to its
length, echoes `page`/`page_size`, and a request beyond the last page yields
an empty record list rather than an error. -/
theorem paginate_slice_and_total (subset : List ChargebackRecord)
    (p : PageSpec) (hp : 1 ≤ p.page) (hps : 1 ≤ p.page_size) :
    (paginate subset p).total = subset.length ∧
    (paginate subset p).records =
      ((sortRecords p subset).drop ((p.page - 1) * p.page_size)).take p.page_size ∧
    (subset.length ≤ (p.page - 1) * p.page_size →
      (paginate subset p).records = []) ∧
    (paginate subset p).page = p.page ∧
    (paginate subset p).page_size = p.page_size := by
  refine ⟨rfl, rfl, ?_, rfl, rfl⟩
  intro h
  have hlen : (sortRecords p subset).length ≤ (p.page - 1) * p.page_size := by
    simpa [sortRecords] using h
  simp [paginate, List.drop_eq_nil_of_le hlen]

/-- Witness for C4, the spec's Example 4: page 100 of size 50 over a
40-record subset returns `{records: [], total: 40, page: 100, page_size: 50}`. -/
theorem paginate_slice_and_total_witness :
    (paginate (List.replicate 40 sampleRec) ⟨100, 50, "date", "desc"⟩).records = [] ∧
    (paginate (List.replicate 40 sampleRec) ⟨100, 50, "date", "desc"⟩).total = 40 ∧
    (paginate (List.replicate 40 sampleRec) ⟨100, 50, "date", "desc"⟩).page = 100 ∧
    (paginate (List.replicate 40 sampleRec) ⟨100, 50, "date", "desc"⟩).page_size = 50 := by
  have h := paginate_slice_and_total (List.replicate 40 sampleRec)
    ⟨100, 50, "date", "desc"⟩ (by decide) (by decide)
  exact ⟨h.2.2.1 (by simp), by simpa using h.1, h.2.2.2.1, h.2.2.2.2⟩

/-- C7: the chargeback rate is `total / matching_transaction_count * 100`
against the volume slice selected by the filter's date and merchant
predicates; without the volume dataset it is the flagged approximation
`total / (total * 37) * 100`, which is the constant `100 / 37` for every
non-empty filtered subset. -/
theorem chargeback_rate_formula_and_fallback (store : List ChargebackRecord)
    (F : FilterSpec) :
    (∀ vol : List VolumeRow,
      (aggregate store (some vol) F).chargeback_rate =
        ((evaluate store F).length : ℚ) / (matchingTransactionCount vol F : ℚ) * 100 ∧
      (aggregate store (some vol) F).rate_is_approx = false) ∧
    (aggregate store none F).chargeback_rate =
      ((evaluate store F).length : ℚ) /
        (((evaluate store F).length : ℚ) * fallbackK) * 100 ∧
    (aggregate store none F).rate_is_approx = true ∧
    (0 < (evaluate store F).length →
      (aggregate store none F).chargeback_rate = 100 / 37) := by
  refine ⟨fun vol => ⟨rfl, rfl⟩, rfl, rfl, ?_⟩
  intro h
  have hne : ((evaluate store F).length : ℚ) ≠ 0 := by
    exact_mod_cast Nat.pos_iff_ne_zero.mp h
  show ((evaluate store F).length : ℚ) /
      (((evaluate store F).length : ℚ) * fallbackK) * 100 = 100 / 37
  rw [fallbackK]
  field_simp
  ring

/-- Witness for C7's fallback constant at a one-record store. -/
theorem chargeback_rate_formula_and_fallback_witness :
    0 < (evaluate [sampleRec] emptyFilter).length ∧
    (aggregate [sampleRec] none emptyFilter).chargeback_rate = 100 / 37 :=
  ⟨by decide,
   (chargeback_rate_formula_and_fallback [sampleRec] emptyFilter).2.2.2 (by decide)⟩

/-! ## Breakdown counting lemmas (for C2) -/

/-- Counting a list under two mutually exclusive predicates splits the count
under their disjunction. -/
theorem length_filter_or_disjoint {α : Type} (l : List α) (p q : α → Bool)
    (h : ∀ a, p a = true → q a = false) :
    (l.filter (fun a => p a || q a)).length =
      (l.filter p).length + (l.filter q).length := by
  induction l with
  | nil => simp
  | cons a t ih =>
    by_cases hp : p a = true
    · have hq := h a hp
      simp [List.filter_cons, hp, hq, ih]
      omega
    · simp only [Bool.not_eq_true] at hp
      by_cases hq : q a = true
      · simp [List.filter_cons, hp, hq, ih]
        omega
      · simp only [Bool.not_eq_true] at hq
        simp [List.filter_cons, hp, hq, ih]

/-- Summing the per-key counts over a duplicate-free key list counts the
records whose key belongs to the list. -/
theorem sum_counts_over_keys {α : Type} (l : List α) (key : α → String) :
    ∀ ks : List String, ks.Nodup →
    (ks.map (fun k => (l.filter (fun r => decide (key r = k))).length)).sum =
      (l.filter (fun r => decide (key r ∈ ks))).length := by
  intro ks
  induction ks with
  | nil => intro _; simp
  | cons k t ih =>
    intro hnd
    have hk : k ∉ t := (List.nodup_cons.mp hnd).1
    have ht := (List.nodup_cons.mp hnd).2
    rw [List.map_cons, List.sum_cons, ih ht]
    have hsplit : (l.filter (fun r => decide (key r ∈ k :: t))).length =
        (l.filter (fun r =>
          decide (key r = k) || decide (key r ∈ t))).length := by
      congr 1
      apply List.filter_congr
      intro r _
      simp [List.mem_cons]
    rw [hsplit, length_filter_or_disjoint]
    intro a ha
    simp only [decide_eq_true_eq] at ha
    simp [ha, hk]

/-- The per-group counts of a breakdown sum to the length of the grouped
list: every record lands in exactly one group and sorting preserves sums. -/
theorem sumCounts_breakdown (l : List ChargebackRecord)
    (key : ChargebackRecord → String) : sumCounts (breakdown l key) = l.length := by
  unfold sumCounts breakdown
  have hperm := List.mergeSort_perm
    ((l.map key).dedup.map (fun k =>
      ({ key := k,
         count := (l.filter (fun r => decide (key r = k))).length,
         amount := ((l.filter (fun r => decide (key r = k))).map
           (fun r => r.amount_usd)).sum } : Group))) groupLe
  rw [(hperm.map (fun g => g.count)).sum_eq]
  rw [List.map_map]
  have hcov : l.filter (fun r => decide (key r ∈ (l.map key).dedup)) = l := by
    apply List.filter_eq_self.mpr
    intro r hr
    simp only [decide_eq_true_eq, List.mem_dedup]
    exact List.mem_map_of_mem key hr
  calc ((l.map key).dedup.map
        ((fun g : Group => g.count) ∘ (fun k =>
          ({ key := k,
             count := (l.filter (fun r => decide (key r = k))).length,
             amount := ((l.filter (fun r => decide (key r = k))).map
               (fun r => r.amount_usd)).sum } : Group)))).sum
      = ((l.map key).dedup.map (fun k =>
          (l.filter (fun r => decide (key r = k))).length)).sum := by rfl
    _ = (l.filter (fun r => decide (key r ∈ (l.map key).dedup))).length :=
        sum_counts_over_keys l key (l.map key).dedup (List.nodup_dedup _)
    _ = l.length := by rw [hcov]

/-- C2: for every filter, `total_chargebacks` equals the size of the
evaluated subset, and the per-group counts of `by_category`, `by_country`
and `by_payment_method` each sum to `total_chargebacks`. -/
theorem aggregate_counts_consistent (store : List ChargebackRecord)
    (volStore : Option (List VolumeRow)) (F : FilterSpec) :
    (aggregate store volStore F).total_chargebacks = (evaluate store F).length ∧
    sumCounts (aggregate store volStore F).by_category =
      (aggregate store volStore F).total_chargebacks ∧
    sumCounts (aggregate store volStore F).by_country =
      (aggregate store volStore F).total_chargebacks ∧
    sumCounts (aggregate store volStore F).by_payment_method =
      (aggregate store volStore F).total_chargebacks :=
  ⟨rfl, sumCounts_breakdown _ _, sumCounts_breakdown _ _, sumCounts_breakdown _ _⟩

/-! ## Date-range lemmas (for C6) -/

/-- Membership in the generated date range is exactly the inclusive
interval. -/
theorem mem_dateRange (lo hi d : ℤ) : d ∈ dateRange lo hi ↔ lo ≤ d ∧ d ≤ hi := by
  unfold dateRange
  simp only [List.mem_map, List.mem_range]
  constructor
  · rintro ⟨i, hi', rfl⟩
    omega
  · rintro ⟨h1, h2⟩
    exact ⟨(d - lo).toNat, by omega, by omega⟩

/-- The generated date range is strictly increasing. -/
theorem dateRange_pairwise (lo hi : ℤ) :
    (dateRange lo hi).Pairwise (fun a b => a < b) := by
  unfold dateRange
  exact (List.pairwise_lt_range _).map _ (fun i j h => by omega)

/-- The dates carried by `by_day` are exactly the generated range. -/
theorem byDay_map_date (store : List ChargebackRecord) (F : FilterSpec)
    (subset : List ChargebackRecord) :
    (byDay store F subset).map (fun e => e.date) =
      dateRange (activeLo store F) (activeHi store F) := by
  unfold byDay
  rw [List.map_map]
  exact List.map_id _

/-- C6: for every filter, `by_day` holds exactly one entry per calendar date
of the active inclusive range (the full dataset range where a bound is
absent), zero-count dates included, in strictly ascending date order. -/
theorem by_day_covers_active_range (store : List ChargebackRecord)
    (volStore : Option (List VolumeRow)) (F : FilterSpec) :
    (∀ d : ℤ, (∃ e ∈ (aggregate store volStore F).by_day, e.date = d) ↔
      activeLo store F ≤ d ∧ d ≤ activeHi store F) ∧
    ((aggregate store volStore F).by_day.map (fun e => e.date)).Pairwise
      (fun a b => a < b) := by
  have hmap : (aggregate store volStore F).by_day.map (fun e => e.date) =
      dateRange (activeLo store F) (activeHi store F) :=
    byDay_map_date store F (evaluate store F)
  constructor
  · intro d
    rw [← mem_dateRange (activeLo store F) (activeHi store F) d, ← hmap]
    simp [List.mem_map, eq_comm]
  · rw [hmap]
    exact dateRange_pairwise _ _

/-! ## Sorting-order lemmas (for C5) -/

/-- The per-field ascending comparison is transitive. -/
theorem recLe_trans (sb : String) (a b c : ChargebackRecord)
    (hab : recLe sb a b = true) (hbc : recLe sb b c = true) :
    recLe sb a c = true := by
  unfold recLe at hab hbc ⊢
  split at hab <;> simp_all <;> exact le_trans hab hbc

/-- The per-field ascending comparison is total. -/
theorem recLe_total (sb : String) (a b : ChargebackRecord) :
    (recLe sb a b || recLe sb b a) = true := by
  rw [Bool.or_eq_true]
  unfold recLe
  split <;> simp only [decide_eq_true_eq] <;> exact le_total _ _

/-- Records tying on the `sort_by` field compare `≤` in both directions. -/
theorem recLe_of_fieldEq (sb : String) (a b : ChargebackRecord)
    (h : fieldEq sb a b) : recLe sb a b = true ∧ recLe sb b a = true := by
  unfold fieldEq at h
  unfold recLe
  split at h <;> simp_all

/-- The directed comparison is transitive for every direction token. -/
theorem sortLe_trans (sb dir : String) (a b c : ChargebackRecord)
    (hab : sortLe sb dir a b = true) (hbc : sortLe sb dir b c = true) :
    sortLe sb dir a c = true := by
  unfold sortLe at hab hbc ⊢
  by_cases hd : dir = "asc"
  · rw [if_pos hd] at hab hbc ⊢
    exact recLe_trans sb a b c hab hbc
  · rw [if_neg hd] at hab hbc ⊢
    exact recLe_trans sb c b a hbc hab

/-- The directed comparison is total for every direction token. -/
theorem sortLe_total (sb dir : String) (a b : ChargebackRecord) :
    (sortLe sb dir a b || sortLe sb dir b a) = true := by
  unfold sortLe
  by_cases hd : dir = "asc"
  · rw [if_pos hd, if_pos hd]
    exact recLe_total sb a b
  · rw [if_neg hd, if_neg hd]
    exact recLe_total sb b a

/-- A tie on the `sort_by` field satisfies the directed comparison in the
original order, for both direction tokens. -/
theorem sortLe_of_fieldEq (sb dir : String) (a b : ChargebackRecord)
    (h : fieldEq sb a b) : sortLe sb dir a b = true := by
  unfold sortLe
  by_cases hd : dir = "asc"
  · rw [if_pos hd]
    exact (recLe_of_fieldEq sb a b h).1
  · rw [if_neg hd]
    exact (recLe_of_fieldEq sb a b h).2

/-- C5: sorting in `paginate` is stable — two records whose `sort_by` values
tie keep their relative pre-sort order in the sorted sequence, for both sort
directions (`sort_dir` reverses the comparison, not the order of ties). -/
theorem sort_stable_on_ties (subset : List ChargebackRecord) (p : PageSpec)
    (a b : ChargebackRecord) (hsub : List.Sublist [a, b] subset)
    (htie : fieldEq p.sort_by a b) :
    List.Sublist [a, b] (sortRecords p subset) := by
  unfold sortRecords
  exact List.pair_sublist_mergeSort
    (fun x y z => sortLe_trans p.sort_by p.sort_dir x y z)
    (fun x y => sortLe_total p.sort_by p.sort_dir x y)
    (sortLe_of_fieldEq p.sort_by p.sort_dir a b htie) hsub

/-- Witness for C5: two distinct records sharing a date keep their order
under the default descending date sort. -/
theorem sort_stable_on_ties_witness :
    List.Sublist [sampleRec, sampleRecB]
      (sortRecords ⟨1, 50, "date", "desc"⟩ [sampleRec, sampleRecB]) :=
  sort_stable_on_ties [sampleRec, sampleRecB] ⟨1, 50, "date", "desc"⟩
    sampleRec sampleRecB (List.Sublist.refl _) rfl

/-! ## C8: validation failures at the core boundary -/

/-- C8: invoked directly with a malformed date string, an unknown enum value
for a reason/country/payment dimension, inverted amount bounds, or
`page < 1` / `page_size < 1`, the core fails with an `InvalidFilterError`
resp. `InvalidPageSpecError` identifying an offending field — it does not
silently clamp or guess. -/
theorem validation_rejects_bad_input :
    (∀ raw : RawFilterInput, filterInvalid raw = true →
      ∃ f, validateFilter raw = .error ⟨f⟩ ∧ offendsFilter raw f = true) ∧
    (∀ p : RawPageInput, pageInvalid p = true →
      ∃ f, validatePage p = .error ⟨f⟩ ∧ offendsPage p f = true) := by
  constructor
  · intro raw h
    by_cases h1 : badDate raw.start_date = true
    · exact ⟨"start_date", by simp [validateFilter, h1], by simp [offendsFilter, h1]⟩
    by_cases h2 : badDate raw.end_date = true
    · exact ⟨"end_date", by simp [validateFilter, h1, h2], by simp [offendsFilter, h2]⟩
    by_cases h3 : badEnums raw.reason_category REASON_CATEGORIES = true
    · exact ⟨"reason_category", by simp [validateFilter, h1, h2, h3],
        by simp [offendsFilter, h3]⟩
    by_cases h4 : badEnums raw.payment_method PAYMENT_METHODS = true
    · exact ⟨"payment_method", by simp [validateFilter, h1, h2, h3, h4],
        by simp [offendsFilter, h4]⟩
    by_cases h5 : badEnums raw.country COUNTRIES = true
    · exact ⟨"country", by simp [validateFilter, h1, h2, h3, h4, h5],
        by simp [offendsFilter, h5]⟩
    by_cases h6 : badAmounts raw = true
    · exact ⟨"min_amount", by simp [validateFilter, h1, h2, h3, h4, h5, h6],
        by simp [offendsFilter, h6]⟩
    · exfalso
      simp [filterInvalid, h1, h2, h3, h4, h5, h6] at h
  · intro p h
    by_cases h1 : p.page < 1
    · exact ⟨"page", by simp [validatePage, h1], by simp [offendsPage, h1]⟩
    by_cases h2 : p.page_size < 1
    · exact ⟨"page_size", by simp [validatePage, h1, h2], by simp [offendsPage, h2]⟩
    · exfalso
      simp [pageInvalid, h1, h2] at h

/-- Witness for C8: an unknown reason-category token, inverted amount bounds
and a zero page are each rejected with the offending field named. -/
theorem validation_rejects_bad_input_witness :
    (∃ f, validateFilter
      ⟨none, none, none, ["not_a_reason"], [], [], none, none⟩ = .error ⟨f⟩ ∧
      offendsFilter
        ⟨none, none, none, ["not_a_reason"], [], [], none, none⟩ f = true) ∧
    (∃ f, validateFilter
      ⟨none, none, none, [], [], [], some 10, some 5⟩ = .error ⟨f⟩ ∧
      offendsFilter ⟨none, none, none, [], [], [], some 10, some 5⟩ f = true) ∧
    (∃ f, validatePage ⟨0, 50, "date", "desc"⟩ = .error ⟨f⟩ ∧
      offendsPage ⟨0, 50, "date", "desc"⟩ f = true) :=
  ⟨validation_rejects_bad_input.1
      ⟨none, none, none, ["not_a_reason"], [], [], none, none⟩ (by decide),
   validation_rejects_bad_input.1
      ⟨none, none, none, [], [], [], some 10, some 5⟩ (by decide),
   validation_rejects_bad_input.2 ⟨0, 50, "date", "desc"⟩ (by decide)⟩

/-! ## C9: request parameter defaults (`api/client.ts`) -/

/-- A lookup skips a leading pair with a different key. -/
theorem getParam_cons_of_ne (q : String × String) (t : List (String × String))
    (k : String) (h : ¬ q.1 = k) : getParam (q :: t) k = getParam t k := by
  unfold getParam
  rw [List.find?_cons_of_neg _ (by simpa using h)]

/-- A lookup returns a leading pair with the sought key. -/
theorem getParam_cons_of_eq (q : String × String) (t : List (String × String))
    (k : String) (h : q.1 = k) : getParam (q :: t) k = some q.2 := by
  unfold getParam
  rw [List.find?_cons_of_pos _ (by simpa using h)]
  rfl

/-- An in-place replacement of key `k` is found when some entry carries
`k`. -/
theorem getParam_replace_self (k v : String) :
    ∀ ps : List (String × String), ps.any (fun q => q.1 = k) = true →
    getParam (ps.map (fun q => if q.1 = k then (k, v) else q)) k = some v := by
  intro ps
  induction ps with
  | nil => intro h; simp at h
  | cons q t ih =>
    intro h
    by_cases hq : q.1 = k
    · rw [List.map_cons, if_pos hq]
      exact getParam_cons_of_eq _ _ _ rfl
    · have ht : t.any (fun q => q.1 = k) = true := by
        simp only [List.any_cons, Bool.or_eq_true] at h
        rcases h with h | h
        · exact absurd (by simpa using h) hq
        · exact h
      rw [List.map_cons, if_neg hq, getParam_cons_of_ne _ _ _ hq]
      exact ih ht

/-- An appended pair for key `k` is found when no earlier entry carries
`k`. -/
theorem getParam_append_self (k v : String) :
    ∀ ps : List (String × String), ps.any (fun q => q.1 = k) = false →
    getParam (ps ++ [(k, v)]) k = some v := by
  intro ps
  induction ps with
  | nil =>
    intro _
    rw [List.nil_append]
    exact getParam_cons_of_eq _ _ _ rfl
  | cons q t ih =>
    intro h
    simp only [List.any_cons, Bool.or_eq_false_iff] at h
    have hq : ¬ q.1 = k := by simpa using h.1
    rw [List.cons_append, getParam_cons_of_ne _ _ _ hq]
    exact ih h.2

/-- An in-place replacement of key `k` never changes a lookup of another
key. -/
theorem getParam_replace_ne (k v k' : String) (h : k' ≠ k) :
    ∀ ps : List (String × String),
    getParam (ps.map (fun q => if q.1 = k then (k, v) else q)) k' =
      getParam ps k' := by
  intro ps
  induction ps with
  | nil => rfl
  | cons q t ih =>
    by_cases hq : q.1 = k
    · have hnew : ¬ ((k, v) : String × String).1 = k' := fun hk => h hk.symm
      have hold : ¬ q.1 = k' := fun hk => h (by rw [← hk]; exact hq)
      rw [List.map_cons, if_pos hq, getParam_cons_of_ne _ _ _ hnew,
        getParam_cons_of_ne _ _ _ hold]
      exact ih
    · rw [List.map_cons, if_neg hq]
      by_cases hq' : q.1 = k'
      · rw [getParam_cons_of_eq _ _ _ hq', getParam_cons_of_eq _ _ _ hq']
      · rw [getParam_cons_of_ne _ _ _ hq', getParam_cons_of_ne _ _ _ hq']
        exact ih

/-- An appended pair for key `k` never changes a lookup of another key. -/
theorem getParam_append_ne (k v k' : String) (h : k' ≠ k) :
    ∀ ps : List (String × String),
    getParam (ps ++ [(k, v)]) k' = getParam ps k' := by
  intro ps
  induction ps with
  | nil =>
    rw [List.nil_append, getParam_cons_of_ne _ _ _ (fun hk => h hk.symm)]
  | cons q t ih =>
    by_cases hq' : q.1 = k'
    · rw [List.cons_append, getParam_cons_of_eq _ _ _ hq',
        getParam_cons_of_eq _ _ _ hq']
    · rw [List.cons_append, getParam_cons_of_ne _ _ _ hq',
        getParam_cons_of_ne _ _ _ hq']
      exact ih

/-- Looking up the key just set by `setParam` returns the new value. -/
theorem getParam_setParam_self (ps : List (String × String)) (k v : String) :
    getParam (setParam ps k v) k = some v := by
  unfold setParam
  by_cases h : ps.any (fun q => q.1 = k) = true
  · rw [if_pos h]
    exact getParam_replace_self k v ps h
  · rw [if_neg h]
    refine getParam_append_self k v ps ?_
    simp only [Bool.not_eq_true] at h
    exact h

/-- `setParam` on a different key leaves a lookup unchanged. -/
theorem getParam_setParam_ne (ps : List (String × String)) (k v k' : String)
    (h : k' ≠ k) : getParam (setParam ps k v) k' = getParam ps k' := by
  unfold setParam
  by_cases hany : ps.any (fun q => q.1 = k) = true
  · rw [if_pos hany]
    exact getParam_replace_ne k v k' h ps
  · rw [if_neg hany]
    exact getParam_append_ne k v k' h ps

/-- C9: when the caller supplies no page/sort parameters,
`fetchChargebacks` issues the request with `page = 1`, `page_size = 50`,
`sort_by = "date"` and `sort_dir = "desc"` (its TypeScript defaults). -/
theorem fetch_defaults (filters : Filters) :
    getParam (fetchChargebacksParams filters) "page" = some "1" ∧
    getParam (fetchChargebacksParams filters) "page_size" = some "50" ∧
    getParam (fetchChargebacksParams filters) "sort_by" = some "date" ∧
    getParam (fetchChargebacksParams filters) "sort_dir" = some "desc" := by
  show getParam (buildQuery filters _) "page" = some "1" ∧
    getParam (buildQuery filters _) "page_size" = some "50" ∧
    getParam (buildQuery filters _) "sort_by" = some "date" ∧
    getParam (buildQuery filters _) "sort_dir" = some "desc"
  unfold buildQuery
  simp only [List.foldl_cons, List.foldl_nil]
  refine ⟨?_, ?_, ?_, ?_⟩
  · rw [getParam_setParam_ne _ _ _ _ (by decide),
      getParam_setParam_ne _ _ _ _ (by decide),
      getParam_setParam_ne _ _ _ _ (by decide),
      getParam_setParam_self]
    rfl
  · rw [getParam_setParam_ne _ _ _ _ (by decide),
      getParam_setParam_ne _ _ _ _ (by decide),
      getParam_setParam_self]
    rfl
  · rw [getParam_setParam_ne _ _ _ _ (by decide),
      getParam_setParam_self]
  · rw [getParam_setParam_self]

end Flashcart
